import Mathlib

/-!
Shallow embedding of `seisflows/scripts/seisflows.py` (the SeisFlows command
line entry point) and proofs about its parameter-sanitization contract and
lifecycle operations (submit / resume / clean / restart).

Python dictionaries are modelled as association lists with distinct keys
(`keysNodup`); Python dictionary equality (`==`), which is insertion-order
insensitive, is modelled by extensional equality of lookups.  Fallible Python
code is modelled with `Except PyErr`.
-/

namespace Seisflows

/-- Python exception conditions that the modelled code can raise. -/
inductive PyErr
  | attributeError
  | keyError
  | typeError
  | fileNotFound
  | checkpointMissing
  | moduleValidationError
deriving DecidableEq, Repr

/-- A scalar YAML/Python value as it appears in the parameter mapping.
`pdict` models the nested `PATHS` dictionary of path strings. -/
inductive Value
  | none
  | str (s : String)
  | bool (b : Bool)
  | int (n : Int)
  | pdict (d : List (String × String))
deriving DecidableEq, Repr

/-- A Python dict, modelled as an association list (insertion order kept). -/
abbrev Config := List (String × Value)

/-- `del d[k]`: remove the entry for key `k`. -/
def delKey {α : Type} (k : String) : List (String × α) → List (String × α)
  | [] => []
  | kv :: rest => if kv.1 = k then delKey k rest else kv :: delKey k rest

/-- `d[k] = v`: replace the entry for `k` in place, appending if absent. -/
def setKey {α : Type} (k : String) (v : α) : List (String × α) → List (String × α)
  | [] => [(k, v)]
  | kv :: rest => if kv.1 = k then (k, v) :: rest else kv :: setKey k v rest

/-- `d.get(k)`: first binding of key `k`, if any. -/
def getKey {α : Type} (k : String) : List (String × α) → Option α
  | [] => Option.none
  | kv :: rest => if kv.1 = k then Option.some kv.2 else getKey k rest

/-- The keys of the association list are pairwise distinct (true of any real
Python dict). -/
def keysNodup {α : Type} (l : List (String × α)) : Prop :=
  (l.map Prod.fst).Nodup

instance {α : Type} (l : List (String × α)) : Decidable (keysNodup l) := by
  unfold keysNodup; infer_instance

/-- `not item and isinstance(item, (type(None), str))` from `parse_null`:
true exactly for `None` and the empty string. -/
def isNullStr : Value → Bool
  | .none => true
  | .str s => s = ""
  | _ => false

/-- `isinstance(item, str)`. -/
def isStrV : Value → Bool
  | .str _ => true
  | _ => false

/-- Python's `str.capitalize` (ASCII model): first character upper-cased,
the remainder lower-cased. -/
def pyCapitalize (s : String) : String :=
  match s.data with
  | [] => s
  | c :: cs => String.mk (Char.toUpper c :: List.map Char.toLower cs)

/-- One iteration of the `for key, item in parameters.items()` loop of
`parse_null` (seisflows.py lines 62-67), acting on the copied dict. -/
def parse_null_step (parsed : Config) (kv : String × Value) : Except PyErr Config :=
  if isNullStr kv.2 then .ok (delKey kv.1 parsed)
  else if kv.1 = "LINESEARCH" then
    match kv.2 with
    | .str s => .ok (setKey kv.1 (.str (pyCapitalize s)) parsed)
    | _ => .error .attributeError
  else .ok parsed

/-- The loop of `parse_null`, iterating over the original entries while
mutating the copy. -/
def parse_null_go : List (String × Value) → Config → Except PyErr Config
  | [], parsed => .ok parsed
  | kv :: rest, parsed =>
    match parse_null_step parsed kv with
    | .ok parsed' => parse_null_go rest parsed'
    | .error e => .error e

/-- `parse_null` (seisflows.py lines 41-69): copy the dict, delete every
`None`/`""` entry, capitalize a surviving `LINESEARCH` value. -/
def parse_null (parameters : Config) : Except PyErr Config :=
  parse_null_go parameters parameters

/-- The per-entry effect of `parse_null` on a surviving lookup:
`none` means the entry is removed. -/
def entryTransform (k : String) (v : Value) : Option Value :=
  if isNullStr v then Option.none
  else if k = "LINESEARCH" then
    match v with
    | .str s => Option.some (.str (pyCapitalize s))
    | _ => Option.some v
  else Option.some v

/-- Every surviving `LINESEARCH` value is a string (absence is fine):
the precondition under which `parse_null` returns a mapping. -/
def goodLS (m : Config) : Prop :=
  ∀ v : Value, ("LINESEARCH", v) ∈ m → isNullStr v = true ∨ isStrV v = true

/-- Python `==` between the results of two fallible dict computations: equal
exceptions, or mappings with identical lookups (Python dict equality is
insertion-order insensitive). -/
def dictEqE : Except PyErr Config → Except PyErr Config → Prop
  | .ok r1, .ok r2 => ∀ k, getKey k r1 = getKey k r2
  | .error e1, .error e2 => e1 = e2
  | _, _ => False

/-- A Python heap of dictionary objects; a dict reference is an index into
the heap. -/
abbrev Heap := List Config

/-- Dereference a dict. -/
def heapGet (h : Heap) (r : Nat) : Config := h.getD r []

/-- Overwrite the dict behind a reference. -/
def heapSet (h : Heap) (r : Nat) (c : Config) : Heap := h.set r c

/-- The loop of `parse_null` as Python executes it on the heap: it iterates
over the entries of the original dict and mutates only the copy behind the
reference `pr` (`del parsed_parameters[key]` / `parsed_parameters[key] = ...`). -/
def parse_null_loop (pr : Nat) : List (String × Value) → Heap → Heap × Option PyErr
  | [], h => (h, Option.none)
  | (k, v) :: rest, h =>
    if isNullStr v then
      parse_null_loop pr rest (heapSet h pr (delKey k (heapGet h pr)))
    else if k = "LINESEARCH" then
      match v with
      | .str s =>
          parse_null_loop pr rest
            (heapSet h pr (setKey k (.str (pyCapitalize s)) (heapGet h pr)))
      | _ => (h, Option.some .attributeError)
    else parse_null_loop pr rest h

/-- `parse_null` on the heap: `dict(parameters)` allocates a copy of the
dict behind `r` at a fresh reference, the loop mutates only the copy, and
the copy's reference is returned (`return parsed_parameters`). -/
def parse_null_ref (h : Heap) (r : Nat) : Heap × Except PyErr Nat :=
  match parse_null_loop h.length (heapGet h r) (h ++ [heapGet h r]) with
  | (h2, Option.none) => (h2, .ok h.length)
  | (h2, Option.some e) => (h2, .error e)

/-- Does the string start with the given character? -/
def startsWithChar (p : String) (c : Char) : Bool :=
  match p.data with
  | [] => false
  | d :: _ => d = c

/-- Modelled from Python's standard library: `os.path.expanduser` expands a
leading `~` to the home directory. -/
def expanduser (home p : String) : String :=
  if startsWithChar p '~' then home ++ p.drop 1 else p

/-- Modelled from the spec: `tilde_expand` (from `seisflows.config`, which is
not under src/) expands home-directory shorthand in every path value of the
mapping. -/
def tilde_expand (home : String) (paths : List (String × String)) :
    List (String × String) :=
  paths.map (fun kv => (kv.1, expanduser home kv.2))

/-- Modelled from Python's standard library: `os.path.abspath` joins a
relative path (including the empty string) onto the current working
directory; in particular `abspath cwd "" = cwd`, just as Python's
`os.path.abspath("")` is `os.getcwd()`. -/
def abspath (cwd p : String) : String :=
  if startsWithChar p '/' then p
  else if p = "" then cwd
  else cwd ++ "/" ++ p

/-- Path resolution performed by `setup` (seisflows.py lines 92-93): tilde
expansion followed by `os.path.abspath` on every value. -/
def resolvePaths (home cwd : String) (paths : List (String × String)) :
    List (String × String) :=
  (tilde_expand home paths).map (fun kv => (kv.1, abspath cwd kv.2))

/-- A live module instance held in the registry (`sys.modules`). -/
inductive Module
  | params (c : Config)
  | pathsM (p : List (String × String))
  | obj (o : Nat)
deriving DecidableEq, Repr

abbrev Registry := List (String × Module)

/-- Modelled from the spec: `names` (from `seisflows.config`, not under src/)
enumerates the workflow roles whose instances are checkpointed as
`output/seisflows_<name>.p`, one Checkpoint Record per role. -/
def names : List String :=
  ["system", "preprocess", "solver", "postprocess", "optimize", "workflow"]

/-- `os.path.join(workdir, "output", f"seisflows_{name}.p")` (line 168). -/
def cpPath (workdir name : String) : String :=
  workdir ++ "/output/seisflows_" ++ name ++ ".p"

/-- The ambient environment of one CLI invocation: filesystem facts,
external-collaborator results and the interactive answers consumed. -/
structure Env where
  paramFileExists : Bool
  yaml : Config
  home : String
  cwd : String
  workdir : String
  fsExists : String → Bool
  precheckAnswer : String
  cleanAnswer : String
  store : String → Option Nat
  checkOk : String → Bool

/-- Observable state threaded through a lifecycle operation. -/
structure RunState where
  registry : Registry
  files : List String
  mkdirs : List String
  printedPaths : List String
  checksRun : List String
  submitted : Bool
deriving DecidableEq, Repr

/-- How a lifecycle operation ends. -/
inductive Outcome
  | completed
  | exited (code : Int)
  | raised (e : PyErr)
deriving DecidableEq, Repr

/-- An initial run state over the given working-directory contents. -/
def initState (files : List String) : RunState :=
  { registry := [], files := files, mkdirs := [], printedPaths := [],
    checksRun := [], submitted := false }

/-- The parameters read (and printed) by `precheck_parameters`
(seisflows.py lines 105-116); a missing one raises `KeyError`. -/
def precheckKeys : List String :=
  ["TITLE", "WORKFLOW", "BEGIN", "END", "RESUME_FROM", "STOP_AFTER",
   "NTASK", "WALLTIME", "CASE", "SMOOTH_H", "SMOOTH_V"]

def precheckKeysPresent (par : Config) : Bool :=
  precheckKeys.all (fun k => (getKey k par).isSome)

/-- `precheck_parameters` (seisflows.py lines 99-120): print the summary
(raising `KeyError` if a referenced parameter is absent) and exit with
status -1 unless the user answers `y`.  `Option.some` is an abnormal stop. -/
def precheck_parameters (answer : String) (par : Config) : Option Outcome :=
  if precheckKeysPresent par = false then Option.some (.raised .keyError)
  else if answer = "y" then Option.none
  else Option.some (.exited (-1))

/-- `setup` (seisflows.py lines 72-96): check the parameter file exists, run
the pre-flight summary prompt when asked to, sanitize parameters, register
them, resolve paths and register those.  `Except.error` is an abnormal end. -/
def setup (env : Env) (precheck : Bool) (st : RunState) :
    RunState × Except Outcome (Config × List (String × String)) :=
  if env.paramFileExists = false then (st, .error (.raised .fileNotFound))
  else
    match (if precheck then precheck_parameters env.precheckAnswer env.yaml
           else Option.none) with
    | Option.some o => (st, .error o)
    | Option.none =>
      match parse_null env.yaml with
      | .error e => (st, .error (.raised e))
      | .ok parameters =>
        let reg1 := setKey "seisflows_parameters" (.params parameters) st.registry
        let st1 := { st with registry := reg1 }
        match getKey "PATHS" parameters with
        | Option.none => (st1, .error (.raised .keyError))
        | Option.some (.pdict rawPaths) =>
          let paths := resolvePaths env.home env.cwd rawPaths
          let reg2 := setKey "seisflows_paths" (.pathsM paths) st1.registry
          let st2 := { st1 with registry := reg2 }
          (st2, .ok (parameters, paths))
        | Option.some _ => (st1, .error (.raised .typeError))

/-- The `paths_dont_exist` list collected by `submit` (lines 130-135): values
of non-exempt (`OUTPUT`/`SCRATCH`), non-empty paths absent from disk. -/
def missingPaths (fsExists : String → Bool) (paths : List (String × String)) :
    List String :=
  paths.filterMap (fun kv =>
    if kv.1 = "OUTPUT" ∨ kv.1 = "SCRATCH" ∨ kv.2 = "" then Option.none
    else if fsExists kv.2 then Option.none
    else Option.some kv.2)

/-- Modelled from the spec: `config()` (from `seisflows.config`, not under
src/) constructs a Module Handle for each workflow role from the
configuration, running each module's own parameter validation; a validation
failure is a fatal abort before any work begins. -/
def configModules (env : Env) : List String → RunState → RunState × Option PyErr
  | [], st => (st, Option.none)
  | n :: rest, st =>
    if env.checkOk n = false then (st, Option.some .moduleValidationError)
    else
      let reg := setKey ("seisflows_" ++ n) (.obj 0) st.registry
      configModules env rest { st with registry := reg }

/-- `submit` (seisflows.py lines 123-153): setup, verify required paths
exist (printing the missing ones and exiting otherwise), create the working
directory, instantiate all modules and hand the workflow to the system. -/
def submit (env : Env) (st : RunState) : RunState × Outcome :=
  match setup env true st with
  | (st1, .error o) => (st1, o)
  | (st1, .ok (_, paths)) =>
    let missing := missingPaths env.fsExists paths
    if missing.isEmpty then
      let reg2 := setKey "seisflows_paths" (.pathsM paths) st1.registry
      let st2 := { st1 with registry := reg2, mkdirs := st1.mkdirs ++ [env.workdir] }
      match configModules env names st2 with
      | (st3, Option.some e) => (st3, .raised e)
      | (st3, Option.none) => ({ st3 with submitted := true }, .completed)
    else
      ({ st1 with printedPaths := st1.printedPaths ++ missing }, .exited 0)

/-- The reload loop of `resume` (lines 167-169): for each role in turn, load
its Checkpoint Record into the registry.  `loadobj` is modelled from the
spec: `load` fails with a CheckpointMissing condition if no record exists
for that role; records already loaded stay in the registry. -/
def loadLoop (env : Env) : List String → RunState → RunState × Option PyErr
  | [], st => (st, Option.none)
  | n :: rest, st =>
    match env.store (cpPath env.workdir n) with
    | Option.none => (st, Option.some .checkpointMissing)
    | Option.some o =>
      let reg := setKey ("seisflows_" ++ n) (.obj o) st.registry
      loadLoop env rest { st with registry := reg }

/-- The validation loop of `resume` (lines 172-173): run each reloaded
module's `check()`.  The check itself is modelled from the spec: a failing
module validation is a fatal ModuleValidationError. -/
def checkLoop (env : Env) : List String → RunState → RunState × Option PyErr
  | [], st => (st, Option.none)
  | n :: rest, st =>
    let st' := { st with checksRun := st.checksRun ++ [n] }
    if env.checkOk n = false then (st', Option.some .moduleValidationError)
    else checkLoop env rest st'

/-- `resume` (seisflows.py lines 156-178): setup, reload every role's
Checkpoint Record, re-run every module's validation, then hand the workflow
to the system. -/
def resume (env : Env) (st : RunState) : RunState × Outcome :=
  match setup env true st with
  | (st1, .error o) => (st1, o)
  | (st1, .ok _) =>
    match loadLoop env names st1 with
    | (st2, Option.some e) => (st2, .raised e)
    | (st2, Option.none) =>
      match checkLoop env names st2 with
      | (st3, Option.some e) => (st3, .raised e)
      | (st3, Option.none) => ({ st3 with submitted := true }, .completed)

/-- `fnmatch`-style matching for the patterns used by `clean`: `*` matches
any sequence of characters, every other character matches itself.  The fuel
argument only bounds the recursion; `pat.length + s.length + 1` always
suffices. -/
def globMatchF : Nat → List Char → List Char → Bool
  | 0, _, _ => false
  | _ + 1, [], [] => true
  | _ + 1, [], _ :: _ => false
  | f + 1, '*' :: ps, [] => globMatchF f ps []
  | f + 1, '*' :: ps, c :: ss =>
      globMatchF f ps (c :: ss) || globMatchF f ('*' :: ps) ss
  | _ + 1, _ :: _, [] => false
  | f + 1, p :: ps, c :: ss => p = c && globMatchF f ps ss

def matchesPat (pat f : String) : Bool :=
  globMatchF (pat.data.length + f.data.length + 1) pat.data f.data

/-- A file removed by a confirmed `clean` (lines 236-240): it matches
`output*` or `*log*`, or it is the `scratch` directory. -/
def cleanRemoves (f : String) : Bool :=
  matchesPat "output*" f || matchesPat "*log*" f || f = "scratch"

/-- `clean` (seisflows.py lines 223-240): prompt for confirmation; on `y`
remove the matching files, otherwise do nothing. -/
def clean (answer : String) (st : RunState) : RunState :=
  if answer = "y" then
    { st with files := st.files.filter (fun f => cleanRemoves f = false) }
  else st

/-- The `restart` branch of `main` (lines 256-258): `clean` then `submit`. -/
def restart (env : Env) (st : RunState) : RunState × Outcome :=
  submit env (clean env.cleanAnswer st)

/-- The state after a successful `setup`: parameters and resolved paths
registered, everything else untouched. -/
def setupRegistry (env : Env) (ps : Config) (d : List (String × String))
    (st : RunState) : RunState :=
  let reg := setKey "seisflows_paths" (Module.pathsM (resolvePaths env.home env.cwd d))
    (setKey "seisflows_parameters" (Module.params ps) st.registry)
  { st with registry := reg }

/-- A parameter file with every pre-flight key present and an empty `PATHS`
mapping. -/
def yamlBase : Config :=
  [("TITLE", .str "test"), ("WORKFLOW", .str "inversion"), ("BEGIN", .int 1),
   ("END", .int 2), ("RESUME_FROM", .none), ("STOP_AFTER", .none),
   ("NTASK", .int 1), ("WALLTIME", .int 10), ("CASE", .str "synthetic"),
   ("SMOOTH_H", .int 0), ("SMOOTH_V", .int 0), ("PATHS", .pdict [])]

/-- `parse_null yamlBase`: the two null-valued entries are removed. -/
def psBase : Config :=
  [("TITLE", .str "test"), ("WORKFLOW", .str "inversion"), ("BEGIN", .int 1),
   ("END", .int 2), ("NTASK", .int 1), ("WALLTIME", .int 10),
   ("CASE", .str "synthetic"), ("SMOOTH_H", .int 0), ("SMOOTH_V", .int 0),
   ("PATHS", .pdict [])]

/-- A benign base environment for the concrete scenarios. -/
def envBase : Env :=
  { paramFileExists := true, yaml := yamlBase, home := "/home/u", cwd := "/work",
    workdir := "/work", fsExists := fun _ => true, precheckAnswer := "y",
    cleanAnswer := "y", store := fun _ => Option.none, checkOk := fun _ => true }

/-- Environment for the resume scenario: the `system` role has a Checkpoint
Record, every other role's record is missing. -/
def envC1 : Env :=
  { envBase with store :=
      fun p => if p = cpPath "/work" "system" then Option.some 7 else Option.none }

/-- Environment where the user declines the `clean` confirmation. -/
def envC5 : Env := { envBase with cleanAnswer := "n" }

/-- Environment where the user declines every confirmation prompt. -/
def envC5d : Env := { envBase with precheckAnswer := "n", cleanAnswer := "n" }

/-- A parameter file configuring one required path. -/
def yamlC6 : Config :=
  setKey "PATHS" (Value.pdict [("SPECFEM_DATA", "/data")]) yamlBase

def psC6 : Config :=
  setKey "PATHS" (Value.pdict [("SPECFEM_DATA", "/data")]) psBase

/-- Environment for the submit scenario: a required path is configured and
nothing exists on disk. -/
def envC6 : Env := { envBase with yaml := yamlC6, fsExists := fun _ => false }

/-- A run state with a list of missing paths appended to the printed output. -/
def printedState (st : RunState) (ms : List String) : RunState :=
  { st with printedPaths := st.printedPaths ++ ms }

theorem toNat_ofNat_lt {n : Nat} (h : n < 55296) : (Char.ofNat n).toNat = n := by
  rw [Char.ofNat, dif_pos (Or.inl h)]
  rfl

theorem toUpper_def (c : Char) :
    Char.toUpper c = if c.toNat ≥ 97 ∧ c.toNat ≤ 122 then Char.ofNat (c.toNat - 32) else c :=
  rfl

theorem toLower_def (c : Char) :
    Char.toLower c = if c.toNat ≥ 65 ∧ c.toNat ≤ 90 then Char.ofNat (c.toNat + 32) else c :=
  rfl

theorem char_toUpper_idem (c : Char) : Char.toUpper (Char.toUpper c) = Char.toUpper c := by
  by_cases h : c.toNat ≥ 97 ∧ c.toNat ≤ 122
  · have h1 : Char.toUpper c = Char.ofNat (c.toNat - 32) := by rw [toUpper_def, if_pos h]
    have ht : (Char.ofNat (c.toNat - 32)).toNat = c.toNat - 32 := toNat_ofNat_lt (by omega)
    rw [h1, toUpper_def, if_neg (by rw [ht]; omega)]
  · have h1 : Char.toUpper c = c := by rw [toUpper_def, if_neg h]
    rw [h1, h1]

theorem char_toLower_idem (c : Char) : Char.toLower (Char.toLower c) = Char.toLower c := by
  by_cases h : c.toNat ≥ 65 ∧ c.toNat ≤ 90
  · have h1 : Char.toLower c = Char.ofNat (c.toNat + 32) := by rw [toLower_def, if_pos h]
    have ht : (Char.ofNat (c.toNat + 32)).toNat = c.toNat + 32 := toNat_ofNat_lt (by omega)
    rw [h1, toLower_def, if_neg (by rw [ht]; omega)]
  · have h1 : Char.toLower c = c := by rw [toLower_def, if_neg h]
    rw [h1, h1]

theorem pyCapitalize_idem (s : String) : pyCapitalize (pyCapitalize s) = pyCapitalize s := by
  cases s with
  | mk data =>
    cases data with
    | nil => rfl
    | cons c cs =>
      show pyCapitalize (String.mk (Char.toUpper c :: List.map Char.toLower cs)) =
        String.mk (Char.toUpper c :: List.map Char.toLower cs)
      simp only [pyCapitalize, List.map_map]
      rw [char_toUpper_idem]
      rw [show Char.toLower ∘ Char.toLower = Char.toLower from funext char_toLower_idem]

theorem pyCapitalize_eq_empty_iff (s : String) : pyCapitalize s = "" ↔ s = "" := by
  cases s with
  | mk data =>
    cases data with
    | nil => simp [pyCapitalize]
    | cons c cs =>
      constructor
      · intro h
        exact absurd (congrArg String.data h) (by simp [pyCapitalize])
      · intro h
        exact absurd (congrArg String.data h) (by simp)

theorem getKey_delKey {α : Type} (k j : String) (l : List (String × α)) :
    getKey k (delKey j l) = if k = j then Option.none else getKey k l := by
  induction l with
  | nil => simp [delKey, getKey]
  | cons kv rest ih =>
    by_cases h1 : kv.1 = j
    · have hd : delKey j (kv :: rest) = delKey j rest := by simp [delKey, h1]
      rw [hd, ih]
      by_cases h2 : k = j
      · rw [if_pos h2, if_pos h2]
      · have hk : kv.1 ≠ k := fun he => h2 (he.symm.trans h1)
        rw [if_neg h2, if_neg h2]
        simp [getKey, hk]
    · have hd : delKey j (kv :: rest) = kv :: delKey j rest := by simp [delKey, h1]
      rw [hd]
      simp only [getKey]
      rw [ih]
      by_cases h2 : kv.1 = k
      · have hkj : k ≠ j := fun he => h1 (h2.trans he)
        rw [if_pos h2, if_neg hkj, if_pos h2]
      · rw [if_neg h2]
        by_cases h3 : k = j
        · rw [if_pos h3, if_pos h3]
        · rw [if_neg h3, if_neg h3, if_neg h2]

theorem getKey_setKey_self {α : Type} (k : String) (v : α) (l : List (String × α)) :
    getKey k (setKey k v l) = Option.some v := by
  induction l with
  | nil => simp [setKey, getKey]
  | cons kv rest ih =>
    by_cases h1 : kv.1 = k
    · simp [setKey, getKey, h1]
    · simp [setKey, getKey, h1, ih]

theorem getKey_setKey_ne {α : Type} {k j : String} (hne : k ≠ j) (v : α)
    (l : List (String × α)) : getKey k (setKey j v l) = getKey k l := by
  induction l with
  | nil =>
    simp only [setKey, getKey]
    rw [if_neg (fun h : j = k => hne h.symm)]
  | cons kv rest ih =>
    by_cases h1 : kv.1 = j
    · have hs : setKey j v (kv :: rest) = (j, v) :: rest := by simp [setKey, h1]
      rw [hs]
      simp only [getKey]
      rw [if_neg (fun h : j = k => hne h.symm)]
      rw [if_neg (fun h : kv.1 = k => hne (h1.symm.trans h).symm)]
    · have hs : setKey j v (kv :: rest) = kv :: setKey j v rest := by simp [setKey, h1]
      rw [hs]
      simp only [getKey]
      rw [ih]

theorem mem_of_getKey {α : Type} {k : String} {v : α} {l : List (String × α)}
    (h : getKey k l = Option.some v) : (k, v) ∈ l := by
  induction l with
  | nil => simp [getKey] at h
  | cons kv rest ih =>
    cases kv with
    | mk k' v' =>
      by_cases h1 : k' = k
      · subst h1
        simp [getKey] at h
        subst h
        exact List.mem_cons_self _ _
      · simp [getKey, h1] at h
        exact List.mem_cons_of_mem _ (ih h)

theorem getKey_eq_none_iff {α : Type} (k : String) (l : List (String × α)) :
    getKey k l = Option.none ↔ k ∉ l.map Prod.fst := by
  induction l with
  | nil => simp [getKey]
  | cons kv rest ih =>
    by_cases h1 : kv.1 = k
    · simp [getKey, h1]
    · simp only [getKey, if_neg h1, List.map_cons, List.mem_cons]
      rw [ih]
      constructor
      · intro hn h
        rcases h with h | h
        · exact h1 h.symm
        · exact hn h
      · intro hn h
        exact hn (Or.inr h)

theorem getKey_of_mem {α : Type} {k : String} {v : α} {l : List (String × α)}
    (hnd : keysNodup l) (h : (k, v) ∈ l) : getKey k l = Option.some v := by
  induction l with
  | nil => simp at h
  | cons kv rest ih =>
    rw [keysNodup, List.map_cons, List.nodup_cons] at hnd
    rcases List.mem_cons.mp h with h | h
    · rw [← h]
      simp [getKey]
    · have hk : kv.1 ≠ k := by
        intro he
        exact hnd.1 (he ▸ (List.mem_map.mpr ⟨(k, v), h, rfl⟩))
      simp [getKey, hk, ih hnd.2 h]

theorem mem_keys_delKey {α : Type} {j x : String} {l : List (String × α)}
    (h : x ∈ (delKey j l).map Prod.fst) : x ∈ l.map Prod.fst := by
  induction l with
  | nil =>
    simp [delKey] at h
  | cons kv rest ih =>
    by_cases h1 : kv.1 = j
    · rw [show delKey j (kv :: rest) = delKey j rest by simp [delKey, h1]] at h
      simp only [List.map_cons, List.mem_cons]
      exact Or.inr (ih h)
    · rw [show delKey j (kv :: rest) = kv :: delKey j rest by simp [delKey, h1]] at h
      simp only [List.map_cons, List.mem_cons] at h ⊢
      rcases h with h | h
      · exact Or.inl h
      · exact Or.inr (ih h)

theorem keysNodup_delKey {α : Type} (j : String) {l : List (String × α)}
    (h : keysNodup l) : keysNodup (delKey j l) := by
  induction l with
  | nil => simpa [delKey] using h
  | cons kv rest ih =>
    rw [keysNodup, List.map_cons, List.nodup_cons] at h
    by_cases h1 : kv.1 = j
    · rw [show delKey j (kv :: rest) = delKey j rest by simp [delKey, h1]]
      exact ih h.2
    · rw [show delKey j (kv :: rest) = kv :: delKey j rest by simp [delKey, h1]]
      rw [keysNodup, List.map_cons, List.nodup_cons]
      exact ⟨fun hm => h.1 (mem_keys_delKey hm), ih h.2⟩

theorem mem_keys_setKey {α : Type} {j x : String} {v : α} {l : List (String × α)}
    (h : x ∈ (setKey j v l).map Prod.fst) : x ∈ l.map Prod.fst ∨ x = j := by
  induction l with
  | nil =>
    simp [setKey] at h
    exact Or.inr h
  | cons kv rest ih =>
    by_cases h1 : kv.1 = j
    · rw [show setKey j v (kv :: rest) = (j, v) :: rest by simp [setKey, h1]] at h
      simp only [List.map_cons, List.mem_cons] at h ⊢
      rcases h with h | h
      · exact Or.inr h
      · exact Or.inl (Or.inr h)
    · rw [show setKey j v (kv :: rest) = kv :: setKey j v rest by simp [setKey, h1]] at h
      simp only [List.map_cons, List.mem_cons] at h ⊢
      rcases h with h | h
      · exact Or.inl (Or.inl h)
      · rcases ih h with h | h
        · exact Or.inl (Or.inr h)
        · exact Or.inr h

theorem keysNodup_setKey {α : Type} (j : String) (v : α) {l : List (String × α)}
    (h : keysNodup l) : keysNodup (setKey j v l) := by
  induction l with
  | nil => simp [setKey, keysNodup]
  | cons kv rest ih =>
    rw [keysNodup, List.map_cons, List.nodup_cons] at h
    by_cases h1 : kv.1 = j
    · rw [show setKey j v (kv :: rest) = (j, v) :: rest by simp [setKey, h1]]
      rw [keysNodup, List.map_cons, List.nodup_cons]
      refine ⟨fun hm => h.1 ?_, h.2⟩
      rw [h1]
      exact hm
    · rw [show setKey j v (kv :: rest) = kv :: setKey j v rest by simp [setKey, h1]]
      rw [keysNodup, List.map_cons, List.nodup_cons]
      refine ⟨fun hm => ?_, ih h.2⟩
      rcases mem_keys_setKey hm with h2 | h2
      · exact h.1 h2
      · exact h1 h2

theorem isStrV_eq_true_iff {v : Value} : isStrV v = true ↔ ∃ s, v = .str s := by
  cases v <;> simp [isStrV]

theorem isNullStr_eq_true_iff {v : Value} :
    isNullStr v = true ↔ v = .none ∨ v = .str "" := by
  cases v <;> simp [isNullStr]

theorem parse_null_step_ok_null {parsed : Config} {k : String} {v : Value}
    (hn : isNullStr v = true) :
    parse_null_step parsed (k, v) = .ok (delKey k parsed) := by
  simp [parse_null_step, hn]

theorem parse_null_step_ok_ls {parsed : Config} {s : String} (hs : s ≠ "") :
    parse_null_step parsed ("LINESEARCH", Value.str s) =
      .ok (setKey "LINESEARCH" (Value.str (pyCapitalize s)) parsed) := by
  simp [parse_null_step, isNullStr, hs]

theorem parse_null_step_ok_other {parsed : Config} {k : String} {v : Value}
    (hk : k ≠ "LINESEARCH") (hn : isNullStr v = false) :
    parse_null_step parsed (k, v) = .ok parsed := by
  simp [parse_null_step, hn, hk]

theorem parse_null_step_err {parsed : Config} {v : Value}
    (h1 : isNullStr v = false) (h2 : isStrV v = false) :
    parse_null_step parsed ("LINESEARCH", v) = .error .attributeError := by
  cases v <;> simp_all [parse_null_step, isNullStr, isStrV]

theorem parse_null_step_nodup {parsed p' : Config} {kv : String × Value}
    (ha : keysNodup parsed) (h : parse_null_step parsed kv = .ok p') : keysNodup p' := by
  obtain ⟨k0, v0⟩ := kv
  simp only [parse_null_step] at h
  split at h
  · injection h with he
    rw [← he]
    exact keysNodup_delKey _ ha
  · split at h
    · cases v0 with
      | str s =>
        injection h with he
        rw [← he]
        exact keysNodup_setKey _ _ ha
      | none => exact Except.noConfusion h
      | bool b => exact Except.noConfusion h
      | int n => exact Except.noConfusion h
      | pdict d => exact Except.noConfusion h
    · injection h with he
      rw [← he]
      exact ha

theorem parse_null_step_getKey_other {parsed p' : Config} {k j : String} {v : Value}
    (hne : j ≠ k) (h : parse_null_step parsed (k, v) = .ok p') :
    getKey j p' = getKey j parsed := by
  simp only [parse_null_step] at h
  split at h
  · injection h with he
    rw [← he, getKey_delKey, if_neg hne]
  · split at h
    · cases v with
      | str s =>
        injection h with he
        rw [← he]
        exact getKey_setKey_ne hne _ _
      | none => exact Except.noConfusion h
      | bool b => exact Except.noConfusion h
      | int n => exact Except.noConfusion h
      | pdict d => exact Except.noConfusion h
    · injection h with he
      rw [← he]

theorem entryTransform_null {k : String} {v : Value} (hn : isNullStr v = true) :
    entryTransform k v = Option.none := by
  simp [entryTransform, hn]

theorem entryTransform_ls_str {s : String} (hs : s ≠ "") :
    entryTransform "LINESEARCH" (Value.str s) = Option.some (.str (pyCapitalize s)) := by
  simp [entryTransform, isNullStr, hs]

theorem entryTransform_other {k : String} {v : Value} (hn : isNullStr v = false)
    (hk : k ≠ "LINESEARCH") : entryTransform k v = Option.some v := by
  simp [entryTransform, hn, hk]

theorem parse_null_step_getKey_self {parsed p' : Config} {k : String} {v : Value}
    (hacc : getKey k parsed = Option.some v)
    (h : parse_null_step parsed (k, v) = .ok p') :
    getKey k p' = entryTransform k v := by
  simp only [parse_null_step] at h
  split at h
  · next hn =>
    injection h with he
    rw [← he, getKey_delKey, if_pos rfl, entryTransform_null hn]
  · next hn =>
    split at h
    · next hls =>
      cases v with
      | str s =>
        have hs : s ≠ "" := by simpa [isNullStr] using hn
        injection h with he
        rw [← he, hls, getKey_setKey_self, entryTransform_ls_str hs]
      | none => exact Except.noConfusion h
      | bool b => exact Except.noConfusion h
      | int n => exact Except.noConfusion h
      | pdict d => exact Except.noConfusion h
    · next hls =>
      injection h with he
      rw [← he, hacc, entryTransform_other (by simpa using hn) hls]

theorem parse_null_go_char (todo : List (String × Value)) :
    ∀ (acc r : Config), (todo.map Prod.fst).Nodup →
    (∀ k v, (k, v) ∈ todo → getKey k acc = Option.some v) →
    parse_null_go todo acc = .ok r →
    (∀ k v, (k, v) ∈ todo → getKey k r = entryTransform k v) ∧
    (∀ k, k ∉ todo.map Prod.fst → getKey k r = getKey k acc) := by
  induction todo with
  | nil =>
    intro acc r _ _ h
    refine ⟨fun k v hm => absurd hm (by simp), fun k _ => ?_⟩
    simp only [parse_null_go] at h
    injection h with h
    rw [h]
  | cons kv rest ih =>
    intro acc r hnd hin h
    obtain ⟨k0, v0⟩ := kv
    rw [List.map_cons, List.nodup_cons] at hnd
    simp only [parse_null_go] at h
    cases hstep : parse_null_step acc (k0, v0) with
    | error e =>
      rw [hstep] at h
      exact Except.noConfusion h
    | ok acc' =>
      rw [hstep] at h
      have hin' : ∀ k v, (k, v) ∈ rest → getKey k acc' = Option.some v := by
        intro k v hm
        have hkne : k ≠ k0 := by
          intro he
          apply hnd.1
          rw [← he]
          exact List.mem_map.mpr ⟨(k, v), hm, rfl⟩
        rw [parse_null_step_getKey_other hkne hstep]
        exact hin k v (List.mem_cons_of_mem _ hm)
      obtain ⟨ih1, ih2⟩ := ih acc' r hnd.2 hin' h
      have hk0 : getKey k0 r = entryTransform k0 v0 := by
        rw [ih2 k0 hnd.1]
        exact parse_null_step_getKey_self (hin k0 v0 (List.mem_cons_self _ _)) hstep
      constructor
      · intro k v hm
        rcases List.mem_cons.mp hm with he | hm'
        · rw [Prod.mk.injEq] at he
          obtain ⟨rfl, rfl⟩ := he
          exact hk0
        · exact ih1 k v hm'
      · intro k hk
        simp only [List.map_cons, List.mem_cons] at hk
        push_neg at hk
        rw [ih2 k hk.2, parse_null_step_getKey_other hk.1 hstep]

theorem parse_null_go_ok (todo : List (String × Value)) :
    ∀ (acc : Config),
    (∀ v, ("LINESEARCH", v) ∈ todo → isNullStr v = true ∨ isStrV v = true) →
    ∃ r, parse_null_go todo acc = .ok r := by
  induction todo with
  | nil => exact fun acc _ => ⟨acc, rfl⟩
  | cons kv rest ih =>
    intro acc hgood
    obtain ⟨k0, v0⟩ := kv
    have hgood' : ∀ v, ("LINESEARCH", v) ∈ rest → isNullStr v = true ∨ isStrV v = true :=
      fun v hm => hgood v (List.mem_cons_of_mem _ hm)
    by_cases hn : isNullStr v0 = true
    · obtain ⟨r, hr⟩ := ih (delKey k0 acc) hgood'
      exact ⟨r, by simp only [parse_null_go, parse_null_step_ok_null hn]; exact hr⟩
    · by_cases hls : k0 = "LINESEARCH"
      · have := hgood v0 (by rw [← hls]; exact List.mem_cons_self _ _)
        rcases this with hcon | hstr
        · exact absurd hcon hn
        · obtain ⟨s, rfl⟩ := isStrV_eq_true_iff.mp hstr
          have hs : s ≠ "" := by simpa [isNullStr] using hn
          subst hls
          obtain ⟨r, hr⟩ := ih (setKey "LINESEARCH" (Value.str (pyCapitalize s)) acc) hgood'
          exact ⟨r, by simp only [parse_null_go, parse_null_step_ok_ls hs]; exact hr⟩
      · obtain ⟨r, hr⟩ := ih acc hgood'
        refine ⟨r, ?_⟩
        simp only [parse_null_go,
          parse_null_step_ok_other hls (by simpa using hn)]
        exact hr

theorem parse_null_go_err (todo : List (String × Value)) :
    ∀ (acc : Config) (v : Value), ("LINESEARCH", v) ∈ todo →
    isNullStr v = false → isStrV v = false →
    parse_null_go todo acc = .error .attributeError := by
  induction todo with
  | nil =>
    intro acc v h
    exact absurd h (by simp)
  | cons kv rest ih =>
    intro acc v hmem h1 h2
    rcases List.mem_cons.mp hmem with he | hm
    · rw [← he]
      simp only [parse_null_go, parse_null_step_err h1 h2]
    · obtain ⟨k0, v0⟩ := kv
      by_cases hn : isNullStr v0 = true
      · simp only [parse_null_go, parse_null_step_ok_null hn]
        exact ih _ v hm h1 h2
      · by_cases hls : k0 = "LINESEARCH"
        · by_cases hstr : isStrV v0 = true
          · obtain ⟨s, rfl⟩ := isStrV_eq_true_iff.mp hstr
            have hs : s ≠ "" := by simpa [isNullStr] using hn
            subst hls
            simp only [parse_null_go, parse_null_step_ok_ls hs]
            exact ih _ v hm h1 h2
          · subst hls
            simp only [parse_null_go,
              parse_null_step_err (by simpa using hn) (by simpa using hstr)]
        · simp only [parse_null_go,
            parse_null_step_ok_other hls (by simpa using hn)]
          exact ih _ v hm h1 h2

theorem parse_null_go_nodup (todo : List (String × Value)) :
    ∀ (acc r : Config), keysNodup acc →
    parse_null_go todo acc = .ok r → keysNodup r := by
  induction todo with
  | nil =>
    intro acc r ha h
    simp only [parse_null_go] at h
    injection h with h
    rw [← h]
    exact ha
  | cons kv rest ih =>
    intro acc r ha h
    simp only [parse_null_go] at h
    cases hstep : parse_null_step acc kv with
    | error e =>
      rw [hstep] at h
      exact Except.noConfusion h
    | ok acc' =>
      rw [hstep] at h
      exact ih acc' r (parse_null_step_nodup ha hstep) h

/-- Characterization of a successful `parse_null`: the result's lookups are
exactly the per-entry transform (removal of null entries, capitalization of a
surviving `LINESEARCH` string, everything else untouched). -/
theorem parse_null_char {m r : Config} (hnd : keysNodup m)
    (h : parse_null m = .ok r) :
    ∀ k, getKey k r = (getKey k m).bind (entryTransform k) := by
  have hin : ∀ k v, (k, v) ∈ m → getKey k m = Option.some v :=
    fun k v hm => getKey_of_mem hnd hm
  obtain ⟨h1, h2⟩ := parse_null_go_char m m r hnd hin h
  intro k
  cases hget : getKey k m with
  | none =>
    rw [h2 k ((getKey_eq_none_iff k m).mp hget), hget]
    rfl
  | some v =>
    exact h1 k v (mem_of_getKey hget)

/-- `parse_null` returns a mapping whenever every `LINESEARCH` entry is
null-like or a string. -/
theorem parse_null_total {m : Config} (hls : goodLS m) :
    ∃ r, parse_null m = .ok r :=
  parse_null_go_ok m m hls

/-- `parse_null` raises `AttributeError` whenever a surviving `LINESEARCH`
value is not a string. -/
theorem parse_null_err {m : Config} {v : Value} (hmem : ("LINESEARCH", v) ∈ m)
    (h1 : isNullStr v = false) (h2 : isStrV v = false) :
    parse_null m = .error .attributeError :=
  parse_null_go_err m m v hmem h1 h2

theorem parse_null_nodup {m r : Config} (hnd : keysNodup m)
    (h : parse_null m = .ok r) : keysNodup r :=
  parse_null_go_nodup m m r hnd h

/-- A value surviving a successful `parse_null` is a fixed point of the
per-entry transform (it is non-null, and a `LINESEARCH` survivor is already
capitalized). -/
theorem parse_null_survivor {m r : Config} (hnd : keysNodup m)
    (h : parse_null m = .ok r) {k : String} {w : Value}
    (hw : getKey k r = Option.some w) : entryTransform k w = Option.some w := by
  have hc := parse_null_char hnd h k
  rw [hw] at hc
  cases hget : getKey k m with
  | none =>
    rw [hget] at hc
    exact absurd hc (by simp)
  | some v0 =>
    rw [hget] at hc
    have hc' : Option.some w = entryTransform k v0 := hc
    by_cases hn : isNullStr v0 = true
    · rw [entryTransform_null hn] at hc'
      exact absurd hc' (by simp)
    · by_cases hls : k = "LINESEARCH"
      · by_cases hstr : isStrV v0 = true
        · obtain ⟨s, rfl⟩ := isStrV_eq_true_iff.mp hstr
          have hs : s ≠ "" := by simpa [isNullStr] using hn
          rw [hls] at hc'
          rw [entryTransform_ls_str hs, Option.some.injEq] at hc'
          have hcapne : pyCapitalize s ≠ "" :=
            fun hhe => hs ((pyCapitalize_eq_empty_iff s).mp hhe)
          rw [hc', hls, entryTransform_ls_str hcapne, pyCapitalize_idem]
        · have herr := parse_null_err (mem_of_getKey (hls ▸ hget))
            (by simpa using hn) (by simpa using hstr)
          rw [herr] at h
          exact Except.noConfusion h
      · rw [entryTransform_other (by simpa using hn) hls, Option.some.injEq] at hc'
        rw [hc']
        exact entryTransform_other (by simpa using hn) hls

/-- A successful `parse_null` result again satisfies the `LINESEARCH`
precondition: every surviving `LINESEARCH` entry is a string. -/
theorem parse_null_goodLS_result {m r : Config} (hnd : keysNodup m)
    (h : parse_null m = .ok r) : goodLS r := by
  intro v hmem
  have hr : getKey "LINESEARCH" r = Option.some v :=
    getKey_of_mem (parse_null_nodup hnd h) hmem
  have hc := parse_null_char hnd h "LINESEARCH"
  rw [hr] at hc
  cases hget : getKey "LINESEARCH" m with
  | none =>
    rw [hget] at hc
    exact absurd hc (by simp)
  | some v0 =>
    rw [hget] at hc
    have hc' : Option.some v = entryTransform "LINESEARCH" v0 := hc
    by_cases hn : isNullStr v0 = true
    · rw [entryTransform_null hn] at hc'
      exact absurd hc' (by simp)
    · by_cases hstr : isStrV v0 = true
      · obtain ⟨s, rfl⟩ := isStrV_eq_true_iff.mp hstr
        have hs : s ≠ "" := by simpa [isNullStr] using hn
        rw [entryTransform_ls_str hs, Option.some.injEq] at hc'
        right
        rw [hc']
        rfl
      · have herr := parse_null_err (mem_of_getKey hget)
          (by simpa using hn) (by simpa using hstr)
        rw [herr] at h
        exact Except.noConfusion h

theorem parse_null_loop_frame (pr : Nat) (todo : List (String × Value)) :
    ∀ (h : Heap) (r : Nat), r ≠ pr →
    (parse_null_loop pr todo h).1[r]? = h[r]? := by
  induction todo with
  | nil =>
    intro h r _
    rfl
  | cons kv rest ih =>
    intro h r hne
    obtain ⟨k, v⟩ := kv
    by_cases hn : isNullStr v = true
    · rw [show parse_null_loop pr ((k, v) :: rest) h =
          parse_null_loop pr rest (heapSet h pr (delKey k (heapGet h pr))) by
        simp [parse_null_loop, hn]]
      rw [ih _ r hne]
      exact List.getElem?_set_ne (fun he => hne he.symm)
    · by_cases hls : k = "LINESEARCH"
      · cases v with
        | str s =>
          rw [show parse_null_loop pr ((k, .str s) :: rest) h =
              parse_null_loop pr rest
                (heapSet h pr (setKey k (.str (pyCapitalize s)) (heapGet h pr))) by
            simp [parse_null_loop, hn, hls]]
          rw [ih _ r hne]
          exact List.getElem?_set_ne (fun he => hne he.symm)
        | none => exact absurd rfl hn
        | bool b =>
          rw [show parse_null_loop pr ((k, .bool b) :: rest) h =
              (h, Option.some .attributeError) by simp [parse_null_loop, hn, hls]]
        | int n =>
          rw [show parse_null_loop pr ((k, .int n) :: rest) h =
              (h, Option.some .attributeError) by simp [parse_null_loop, hn, hls]]
        | pdict d =>
          rw [show parse_null_loop pr ((k, .pdict d) :: rest) h =
              (h, Option.some .attributeError) by simp [parse_null_loop, hn, hls]]
      · rw [show parse_null_loop pr ((k, v) :: rest) h =
            parse_null_loop pr rest h by simp [parse_null_loop, hn, hls]]
        exact ih _ r hne

theorem setup_ok_eval (env : Env) (st : RunState) (ps : Config)
    (d : List (String × String))
    (hpf : env.paramFileExists = true)
    (hpk : precheckKeysPresent env.yaml = true)
    (hans : env.precheckAnswer = "y")
    (hparse : parse_null env.yaml = .ok ps)
    (hpaths : getKey "PATHS" ps = Option.some (.pdict d)) :
    setup env true st =
      (setupRegistry env ps d st, .ok (ps, resolvePaths env.home env.cwd d)) := by
  simp [setup, setupRegistry, precheck_parameters, hpf, hpk, hans, hparse, hpaths]

theorem setup_declined (env : Env) (st : RunState)
    (hpf : env.paramFileExists = true)
    (hpk : precheckKeysPresent env.yaml = true)
    (hans : env.precheckAnswer ≠ "y") :
    setup env true st = (st, .error (.exited (-1))) := by
  simp [setup, precheck_parameters, hpf, hpk, hans]

theorem loadLoop_frame (env : Env) (ns : List String) :
    ∀ st : RunState, (loadLoop env ns st).1.submitted = st.submitted ∧
      (loadLoop env ns st).1.checksRun = st.checksRun ∧
      (loadLoop env ns st).1.files = st.files ∧
      (loadLoop env ns st).1.mkdirs = st.mkdirs := by
  induction ns with
  | nil => exact fun st => ⟨rfl, rfl, rfl, rfl⟩
  | cons n rest ih =>
    intro st
    cases hs : env.store (cpPath env.workdir n) with
    | none => simp [loadLoop, hs]
    | some o =>
      simp only [loadLoop, hs]
      exact ih _

theorem loadLoop_missing (env : Env) (ns : List String) :
    ∀ st : RunState, (∃ n ∈ ns, env.store (cpPath env.workdir n) = Option.none) →
    loadLoop env ns st =
      ((loadLoop env (ns.takeWhile fun n => (env.store (cpPath env.workdir n)).isSome)
          st).1,
        Option.some PyErr.checkpointMissing) := by
  induction ns with
  | nil =>
    intro st h
    simp at h
  | cons n rest ih =>
    intro st hex
    cases hs : env.store (cpPath env.workdir n) with
    | none =>
      simp [loadLoop, hs, List.takeWhile_cons]
    | some o =>
      have hex' : ∃ m ∈ rest, env.store (cpPath env.workdir m) = Option.none := by
        rcases hex with ⟨m, hm, hnone⟩
        rcases List.mem_cons.mp hm with he | hm'
        · rw [he] at hnone
          rw [hnone] at hs
          exact Option.noConfusion hs
        · exact ⟨m, hm', hnone⟩
      simp only [loadLoop, hs, List.takeWhile_cons, Option.isSome_some, if_true]
      exact ih _ hex'

/-- C1 counterexample: with the `system` Checkpoint Record present and the
`preprocess` record deleted, `resume` does fail with CheckpointMissing, but
the Registry entry for the `system` role HAS been set by this resume —
contradicting "performs no partial Registry population: after the failure,
no role's entry in the Module Registry has been set by this resume". -/
theorem C1_counterexample :
    (resume envC1 (initState [])).2 = .raised .checkpointMissing ∧
    getKey "seisflows_system" (resume envC1 (initState [])).1.registry =
      Option.some (.obj 7) ∧
    getKey "seisflows_system" (initState []).registry = Option.none := by
  exact ⟨rfl, rfl, rfl⟩

/-- C1 (amended): a resume in which some role's Checkpoint Record is missing
fails fast with CheckpointMissing — no module validation runs and the
workflow driver is never invoked — but the Module Registry is populated for
exactly the roles enumerated before the first missing record (entries
already loaded are not rolled back). -/
theorem C1_resume_missing_checkpoint (env : Env) (st : RunState) (ps : Config)
    (d : List (String × String))
    (hpf : env.paramFileExists = true)
    (hpk : precheckKeysPresent env.yaml = true)
    (hans : env.precheckAnswer = "y")
    (hparse : parse_null env.yaml = .ok ps)
    (hpaths : getKey "PATHS" ps = Option.some (.pdict d))
    (hmiss : ∃ n ∈ names, env.store (cpPath env.workdir n) = Option.none) :
    (resume env st).2 = .raised .checkpointMissing ∧
    (resume env st).1.submitted = st.submitted ∧
    (resume env st).1.checksRun = st.checksRun ∧
    (resume env st).1.registry =
      (loadLoop env
        (names.takeWhile fun n => (env.store (cpPath env.workdir n)).isSome)
        (setupRegistry env ps d st)).1.registry := by
  have hs := setup_ok_eval env st ps d hpf hpk hans hparse hpaths
  have hl := loadLoop_missing env names (setupRegistry env ps d st) hmiss
  have hres : resume env st =
      ((loadLoop env
          (names.takeWhile fun n => (env.store (cpPath env.workdir n)).isSome)
          (setupRegistry env ps d st)).1,
        .raised .checkpointMissing) := by
    simp only [resume, hs, hl]
  rw [hres]
  have hf := loadLoop_frame env
    (names.takeWhile fun n => (env.store (cpPath env.workdir n)).isSome)
    (setupRegistry env ps d st)
  refine ⟨rfl, ?_, ?_, rfl⟩
  · rw [hf.1]
    rfl
  · rw [hf.2.1]
    rfl

/-- C1 witness: the amended statement at the concrete scenario of the
counterexample. -/
theorem C1_witness :
    (∃ n ∈ names, envC1.store (cpPath envC1.workdir n) = Option.none) ∧
    (resume envC1 (initState [])).2 = .raised .checkpointMissing ∧
    (resume envC1 (initState [])).1.checksRun = [] := by
  have h := C1_resume_missing_checkpoint envC1 (initState []) psBase []
    rfl rfl rfl rfl rfl ⟨"preprocess", by decide, rfl⟩
  exact ⟨⟨"preprocess", by decide, rfl⟩, h.1, h.2.2.1⟩

/-- C2: the code maps every `PATHS` value through `os.path.abspath`, and
Python's `abspath("")` is the current working directory — so an empty path
value does NOT remain empty after resolution; it becomes the cwd.  (The
`path == ""` exemption in `submit`, line 132, is therefore unreachable.) -/
theorem C2_empty_path_becomes_cwd :
    resolvePaths "/home/user" "/work" [("SPECFEM_BIN", "")] =
      [("SPECFEM_BIN", "/work")] ∧
    abspath "/work" "" = "/work" ∧
    ("/work" : String) ≠ "" :=
  ⟨rfl, rfl, by decide⟩

/-- C3 counterexample: an entry whose value is a non-empty string is not
removed, yet it is NOT preserved unchanged: a surviving `LINESEARCH` value
is capitalized. -/
theorem C3_counterexample :
    parse_null [("LINESEARCH", Value.str "backtrack")] =
      .ok [("LINESEARCH", Value.str "Backtrack")] ∧
    isNullStr (Value.str "backtrack") = false ∧
    Value.str "Backtrack" ≠ Value.str "backtrack" := by
  exact ⟨rfl, rfl, by decide⟩

/-- C3 (amended): the sanitizer removes exactly the entries whose value is
`None` or the empty string and preserves every other entry unchanged —
except the `LINESEARCH` entry, whose surviving string value is capitalized. -/
theorem C3_sanitize_characterization (m r : Config) (hnd : keysNodup m)
    (h : parse_null m = .ok r) :
    (∀ k v, (k, v) ∈ m → isNullStr v = true → getKey k r = Option.none) ∧
    (∀ k v, (k, v) ∈ m → isNullStr v = false → k ≠ "LINESEARCH" →
      getKey k r = Option.some v) ∧
    (∀ s : String, ("LINESEARCH", Value.str s) ∈ m → s ≠ "" →
      getKey "LINESEARCH" r = Option.some (Value.str (pyCapitalize s))) ∧
    (∀ k, k ∉ m.map Prod.fst → getKey k r = Option.none) := by
  have hc := parse_null_char hnd h
  refine ⟨?_, ?_, ?_, ?_⟩
  · intro k v hm hnull
    rw [hc k, getKey_of_mem hnd hm]
    exact entryTransform_null hnull
  · intro k v hm hnn hk
    rw [hc k, getKey_of_mem hnd hm]
    exact entryTransform_other hnn hk
  · intro s hm hs
    rw [hc "LINESEARCH", getKey_of_mem hnd hm]
    exact entryTransform_ls_str hs
  · intro k hk
    rw [hc k, (getKey_eq_none_iff k m).mpr hk]
    rfl

/-- C3 witness: the amended characterization at a concrete mapping. -/
theorem C3_witness :
    keysNodup [("NTASK", Value.int 0), ("CASE", Value.none)] ∧
    parse_null [("NTASK", Value.int 0), ("CASE", Value.none)] =
      .ok [("NTASK", Value.int 0)] ∧
    getKey "CASE" [("NTASK", Value.int 0)] = (Option.none : Option Value) ∧
    getKey "NTASK" [("NTASK", Value.int 0)] = Option.some (Value.int 0) := by
  refine ⟨by decide, rfl, ?_, ?_⟩
  · exact (C3_sanitize_characterization
      [("NTASK", Value.int 0), ("CASE", Value.none)] [("NTASK", Value.int 0)]
      (by decide) rfl).1 "CASE" Value.none (by decide) rfl
  · exact (C3_sanitize_characterization
      [("NTASK", Value.int 0), ("CASE", Value.none)] [("NTASK", Value.int 0)]
      (by decide) rfl).2.1 "NTASK" (Value.int 0) (by decide) rfl (by decide)

/-- C4: sanitizing is idempotent — `sanitize(sanitize(m))` equals
`sanitize(m)` as Python dict equality (identical lookups; identical
exception if the sanitizer raises). -/
theorem C4_sanitize_idempotent (m : Config) (hnd : keysNodup m) :
    dictEqE (parse_null m >>= parse_null) (parse_null m) := by
  cases hok : parse_null m with
  | error e =>
    show dictEqE (Except.error e >>= parse_null) (Except.error e)
    exact rfl
  | ok r =>
    have hndr := parse_null_nodup hnd hok
    have hgood := parse_null_goodLS_result hnd hok
    obtain ⟨r', hr'⟩ := parse_null_total hgood
    show dictEqE (Except.ok r >>= parse_null) (Except.ok r)
    have hbind : (Except.ok r >>= parse_null : Except PyErr Config) = parse_null r :=
      rfl
    rw [hbind, hr']
    show ∀ k, getKey k r' = getKey k r
    intro k
    have hc := parse_null_char hndr hr' k
    cases hget : getKey k r with
    | none =>
      rw [hget] at hc
      exact hc
    | some w =>
      rw [hget] at hc
      have hc' : getKey k r' = entryTransform k w := hc
      rw [hc']
      exact parse_null_survivor hnd hok hget

/-- C4 witness: idempotence at a concrete mapping. -/
theorem C4_witness :
    keysNodup [("LINESEARCH", Value.str "bracket"), ("CASE", Value.none),
      ("NTASK", Value.int 0)] ∧
    dictEqE
      (parse_null [("LINESEARCH", Value.str "bracket"), ("CASE", Value.none),
        ("NTASK", Value.int 0)] >>= parse_null)
      (parse_null [("LINESEARCH", Value.str "bracket"), ("CASE", Value.none),
        ("NTASK", Value.int 0)]) :=
  ⟨by decide, C4_sanitize_idempotent _ (by decide)⟩

/-- C5 counterexample: in `restart`, a declined clean confirmation does NOT
terminate the operation — `clean` removes nothing and control proceeds to
`submit`, which here reaches the workflow driver (`submitted = true`). -/
theorem C5_counterexample :
    envC5.cleanAnswer ≠ "y" ∧
    (restart envC5 (initState ["output", "mylog.txt", "parameters.yaml"])).1.submitted
      = true ∧
    (restart envC5 (initState ["output", "mylog.txt", "parameters.yaml"])).1.files =
      ["output", "mylog.txt", "parameters.yaml"] := by
  exact ⟨by decide, rfl, rfl⟩

/-- C5 (amended): declining the pre-flight summary terminates `submit` (and
`resume`) with exit status -1 and no state change at all; declining the
clean confirmation leaves the directory untouched; but in `restart` a
declined clean confirmation does not terminate the operation — `restart`
continues into `submit` exactly as if clean had not been requested. -/
theorem C5_declined_prompts (env : Env) (st : RunState) :
    (env.paramFileExists = true → precheckKeysPresent env.yaml = true →
      env.precheckAnswer ≠ "y" → submit env st = (st, .exited (-1))) ∧
    (env.paramFileExists = true → precheckKeysPresent env.yaml = true →
      env.precheckAnswer ≠ "y" → resume env st = (st, .exited (-1))) ∧
    (env.cleanAnswer ≠ "y" → clean env.cleanAnswer st = st) ∧
    (env.cleanAnswer ≠ "y" → restart env st = submit env st) := by
  refine ⟨fun hpf hpk hans => ?_, fun hpf hpk hans => ?_, fun hc => ?_, fun hc => ?_⟩
  · simp only [submit, setup_declined env st hpf hpk hans]
  · simp only [resume, setup_declined env st hpf hpk hans]
  · simp [clean, hc]
  · simp [restart, clean, hc]

/-- C5 witness: the amended statement at concrete declining environments. -/
theorem C5_witness :
    submit envC5d (initState []) = (initState [], .exited (-1)) ∧
    clean envC5d.cleanAnswer (initState ["parameters.yaml"]) =
      initState ["parameters.yaml"] ∧
    restart envC5d (initState []) = submit envC5d (initState []) := by
  have h := C5_declined_prompts envC5d (initState [])
  have h2 := C5_declined_prompts envC5d (initState ["parameters.yaml"])
  exact ⟨h.1 rfl rfl (by decide), h2.2.2.1 (by decide), h.2.2.2 (by decide)⟩

/-- C6: a fresh start (`submit`) with a configured required path missing on
disk prints exactly the list of missing paths and exits before creating the
working directory and before constructing any workflow Module Handle (no
role's registry entry changes, the driver is never invoked). -/
theorem C6_submit_missing_paths (env : Env) (st : RunState) (ps : Config)
    (d : List (String × String))
    (hpf : env.paramFileExists = true)
    (hpk : precheckKeysPresent env.yaml = true)
    (hans : env.precheckAnswer = "y")
    (hparse : parse_null env.yaml = .ok ps)
    (hpaths : getKey "PATHS" ps = Option.some (.pdict d))
    (hmiss : (missingPaths env.fsExists (resolvePaths env.home env.cwd d)).isEmpty
      = false) :
    (submit env st).2 = .exited 0 ∧
    (submit env st).1.printedPaths =
      st.printedPaths ++ missingPaths env.fsExists (resolvePaths env.home env.cwd d) ∧
    (submit env st).1.mkdirs = st.mkdirs ∧
    (submit env st).1.submitted = st.submitted ∧
    (∀ n ∈ names, getKey ("seisflows_" ++ n) (submit env st).1.registry =
      getKey ("seisflows_" ++ n) st.registry) := by
  have hs := setup_ok_eval env st ps d hpf hpk hans hparse hpaths
  have hsub : submit env st =
      (printedState (setupRegistry env ps d st)
        (missingPaths env.fsExists (resolvePaths env.home env.cwd d)),
       .exited 0) := by
    simp only [submit, hs, hmiss, Bool.false_eq_true, if_false, printedState]
  rw [hsub]
  refine ⟨rfl, rfl, rfl, rfl, ?_⟩
  intro n hn
  simp only [printedState, setupRegistry]
  fin_cases hn <;>
    rw [getKey_setKey_ne (by decide), getKey_setKey_ne (by decide)]

/-- C6 witness: the submit abort at a concrete environment with one missing
required path. -/
theorem C6_witness :
    (submit envC6 (initState [])).2 = .exited 0 ∧
    (submit envC6 (initState [])).1.printedPaths = ["/data"] ∧
    (submit envC6 (initState [])).1.mkdirs = [] ∧
    (submit envC6 (initState [])).1.submitted = false := by
  have h := C6_submit_missing_paths envC6 (initState []) psC6
    [("SPECFEM_DATA", "/data")] rfl rfl rfl rfl rfl rfl
  exact ⟨h.1, h.2.1.trans rfl, h.2.2.1.trans rfl, h.2.2.2.1.trans rfl⟩

/-- C7: a `LINESEARCH` entry that survives removal has its string value
capitalized (first character upper-cased, remainder lower-cased, which is
`pyCapitalize`). -/
theorem C7_linesearch_capitalized (m : Config) (s : String) (hnd : keysNodup m)
    (hmem : ("LINESEARCH", Value.str s) ∈ m) (hs : s ≠ "") :
    ∃ r, parse_null m = .ok r ∧
      getKey "LINESEARCH" r = Option.some (Value.str (pyCapitalize s)) := by
  have hgood : goodLS m := by
    intro v hv
    have h1 := getKey_of_mem hnd hmem
    have h2 := getKey_of_mem hnd hv
    rw [h1] at h2
    right
    rw [← Option.some.inj h2]
    rfl
  obtain ⟨r, hr⟩ := parse_null_total hgood
  refine ⟨r, hr, ?_⟩
  have hc := parse_null_char hnd hr "LINESEARCH"
  rw [getKey_of_mem hnd hmem] at hc
  rw [hc]
  exact entryTransform_ls_str hs

/-- C7 witness: sanitizing `{"LINESEARCH": "backtrack"}` yields
`{"LINESEARCH": "Backtrack"}`. -/
theorem C7_witness :
    keysNodup [("LINESEARCH", Value.str "backtrack")] ∧
    ∃ r, parse_null [("LINESEARCH", Value.str "backtrack")] = .ok r ∧
      getKey "LINESEARCH" r = Option.some (Value.str "Backtrack") := by
  refine ⟨by decide, ?_⟩
  have h := C7_linesearch_capitalized [("LINESEARCH", Value.str "backtrack")]
    "backtrack" (by decide) (by decide) (by decide)
  rw [show ("Backtrack" : String) = pyCapitalize "backtrack" from rfl]
  exact h

/-- C8: a confirmed `clean` on a directory holding `output/`, `mylog.txt`
and `parameters.yaml` leaves only `parameters.yaml`; and `clean` never
removes the parameter file from any directory. -/
theorem C8_clean_preserves_parameter_file :
    (clean "y" (initState ["output", "mylog.txt", "parameters.yaml"])).files =
      ["parameters.yaml"] ∧
    (∀ (ans : String) (st : RunState), "parameters.yaml" ∈ st.files →
      "parameters.yaml" ∈ (clean ans st).files) := by
  constructor
  · rfl
  · intro ans st hm
    by_cases ha : ans = "y"
    · subst ha
      simp only [clean, if_pos rfl]
      exact List.mem_filter.mpr ⟨hm, by decide⟩
    · simp only [clean, if_neg ha]
      exact hm

/-- C8 witness: the preservation clause at a concrete directory. -/
theorem C8_witness :
    "parameters.yaml" ∈ (initState ["output", "parameters.yaml"]).files ∧
    "parameters.yaml" ∈ (clean "y" (initState ["output", "parameters.yaml"])).files := by
  refine ⟨by decide, ?_⟩
  exact C8_clean_preserves_parameter_file.2 "y"
    (initState ["output", "parameters.yaml"]) (by decide)

/-- C9: `parse_null` does not mutate its input: on the Python heap it
allocates a copy, mutates only the copy, and the dict behind the input
reference is unchanged after the call; the returned reference is never the
input reference. -/
theorem C9_no_mutation (h : Heap) (r : Nat) (hr : r < h.length) :
    (parse_null_ref h r).1[r]? = h[r]? ∧ (parse_null_ref h r).2 ≠ .ok r := by
  have hne : r ≠ h.length := Nat.ne_of_lt hr
  have hframe := parse_null_loop_frame h.length (heapGet h r) (h ++ [heapGet h r]) r hne
  have happ : (h ++ [heapGet h r])[r]? = h[r]? := List.getElem?_append_left hr
  cases hloop : parse_null_loop h.length (heapGet h r) (h ++ [heapGet h r]) with
  | mk h2 oe =>
    have h2eq : h2[r]? = h[r]? := by
      have hh : h2 = (parse_null_loop h.length (heapGet h r) (h ++ [heapGet h r])).1 := by
        rw [hloop]
      rw [hh, hframe, happ]
    cases oe with
    | none =>
      have hpr : parse_null_ref h r = (h2, .ok h.length) := by
        simp only [parse_null_ref, hloop]
      rw [hpr]
      refine ⟨h2eq, ?_⟩
      simp only [ne_eq, Except.ok.injEq]
      exact fun he => hne he.symm
    | some e =>
      have hpr : parse_null_ref h r = (h2, .error e) := by
        simp only [parse_null_ref, hloop]
      rw [hpr]
      exact ⟨h2eq, by simp⟩

/-- C9 witness: non-mutation at a concrete heap. -/
theorem C9_witness :
    (0 : Nat) < ([[("CASE", Value.none)]] : Heap).length ∧
    (parse_null_ref [[("CASE", Value.none)]] 0).1[0]? =
      ([[("CASE", Value.none)]] : Heap)[0]? ∧
    (parse_null_ref [[("CASE", Value.none)]] 0).2 ≠ .ok 0 := by
  have h := C9_no_mutation [[("CASE", Value.none)]] 0 (by decide)
  exact ⟨by decide, h.1, h.2⟩

/-- C10: the sanitizer is partial on non-string `LINESEARCH` values: a
surviving non-string value raises `AttributeError`; under the precondition
that every `LINESEARCH` entry is null-like or a string, it returns a
mapping. -/
theorem C10_linesearch_partiality :
    (∀ (m : Config) (v : Value), ("LINESEARCH", v) ∈ m → isNullStr v = false →
      isStrV v = false → parse_null m = .error .attributeError) ∧
    (∀ m : Config, goodLS m → ∃ r, parse_null m = .ok r) :=
  ⟨fun _ _ hm h1 h2 => parse_null_err hm h1 h2, fun _ hg => parse_null_total hg⟩

/-- C10 witness: `{"LINESEARCH": 0}` raises; a mapping with no surviving
non-string `LINESEARCH` succeeds. -/
theorem C10_witness :
    parse_null [("LINESEARCH", Value.int 0)] = .error .attributeError ∧
    ∃ r, parse_null [("NTASK", Value.bool false)] = .ok r := by
  constructor
  · exact C10_linesearch_partiality.1 [("LINESEARCH", Value.int 0)] (Value.int 0)
      (by decide) rfl rfl
  · refine C10_linesearch_partiality.2 [("NTASK", Value.bool false)] ?_
    intro v hv
    simp at hv

end Seisflows
